import Mathlib

/-!
Verification of the session-list core of the sales-analytics-dashboard
repository: URL-synchronized filter/sort state (`src/hooks/useUrlState.ts`,
`src/lib/utils.ts`), the page accumulator and client-side filter/sort engine
(`src/pages/SessionList.tsx`), and the retrying transport
(`src/services/api.ts`).  Each definition is a shallow embedding of the
corresponding TypeScript source; doc comments name the embedded function.
-/

namespace SalesDash

/-! ## URL query-string model (URLSearchParams) -/

/-- A URL query string, as an ordered list of key/value pairs.  Models the
`URLSearchParams` instances manipulated by `useUrlState`. -/
abbrev Params := List (String × String)

/-- Model of `URLSearchParams.get`: the value of the first pair with the given
key, or `none` (JS `null`) when absent. -/
def pget (ps : Params) (k : String) : Option String :=
  (ps.find? (fun kv => kv.1 == k)).map (fun kv => kv.2)

/-- Model of `URLSearchParams.set`: replace the value of an existing key in
place, otherwise append the pair at the end. -/
def pset (ps : Params) (k v : String) : Params :=
  if ps.any (fun kv => kv.1 == k) then
    ps.map (fun kv => if kv.1 == k then (k, v) else kv)
  else ps ++ [(k, v)]

/-- Model of `URLSearchParams.delete`: remove every pair with the given key. -/
def pdelete (ps : Params) (k : String) : Params :=
  ps.filter (fun kv => !(kv.1 == k))

/-- A JavaScript value appearing in a partial state update passed to
`updateState` in `useUrlState.ts`: a string, a number (the numeric state
fields hold integers in observed use, so numbers are embedded as `Int`),
or `undefined`/`null`. -/
inductive JsVal where
  | str (s : String)
  | num (n : Int)
  | undef
deriving DecidableEq, Repr

/-- JS whitespace for `String.prototype.trim`, restricted to the ASCII
whitespace characters that can occur in this application's state strings. -/
def isJsSpace (c : Char) : Bool :=
  c == ' ' || c == '\t' || c == '\n' || c == '\r'

/-- Character-list trim: drop whitespace from both ends. -/
def trimChars (l : List Char) : List Char :=
  ((l.dropWhile isJsSpace).reverse.dropWhile isJsSpace).reverse

/-- Model of JS `s.trim()`. -/
def jsTrim (s : String) : String :=
  ⟨trimChars s.data⟩

/-- Model of the emptiness test in `updateState`
(`useUrlState.ts` lines 49-50):
`value === undefined || value === null || value === '' ||
(typeof value === 'string' && value.trim() === '')`.
Numbers are never empty (`0 === ''` is false under strict equality). -/
def isEmptyVal : JsVal → Bool
  | .undef => true
  | .str s => s == "" || jsTrim s == ""
  | .num _ => false

/-- Model of JavaScript `String(value)` on the values that reach
`newParams.set` (non-empty strings and numbers). -/
def jsValToString : JsVal → String
  | .str s => s
  | .num n => toString n
  | .undef => "undefined"

/-- A partial state update: the `Object.entries(updates)` list processed by
`updateState`, in insertion order. -/
abbrev PartialUpdate := List (String × JsVal)

/-- One iteration of the `for (const [key, value] of Object.entries(updates))`
loop in `updateState` (`useUrlState.ts` lines 48-55): empty values delete the
key, others are stringified and set. -/
def applyEntry (ps : Params) (kv : String × JsVal) : Params :=
  if isEmptyVal kv.2 then pdelete ps kv.1 else pset ps kv.1 (jsValToString kv.2)

/-- The whole `updateState` loop: fold the entries of the partial update, in
order, over a copy of the current search params. -/
def applyPartial (ps : Params) (u : PartialUpdate) : Params :=
  u.foldl applyEntry ps

/-! ## Filter/Sort State (`useUrlState` record used by `SessionList.tsx`) -/

/-- The Filter/Sort State record passed to `useUrlState` in `SessionList.tsx`
lines 582-593.  Numeric fields are embedded as `Int` (their observed values
are integers); `team` has default `undefined`, embedded as `Option String`. -/
structure UrlState where
  pageSize : Int
  search : String
  sortBy : String
  sortOrder : String
  scoreMin : Int
  scoreMax : Int
  dateFrom : String
  dateTo : String
  team : Option String
  sessionId : String
deriving DecidableEq, Repr

/-- The default Filter/Sort State: `PAGINATION.DEFAULT_PAGE_SIZE = 50`,
`SCORE_RANGES.MIN = 0`, `SCORE_RANGES.MAX = 10` from `lib/constants.ts`, and
the literals of `SessionList.tsx` lines 582-593. -/
def defaultUrlState : UrlState :=
  { pageSize := 50
    search := ""
    sortBy := "created_at"
    sortOrder := "desc"
    scoreMin := 0
    scoreMax := 10
    dateFrom := ""
    dateTo := ""
    team := none
    sessionId := "" }

/-- The `Object.entries` view of a full Filter/Sort State, in object-literal
order, as it would be passed to `updateState` when writing the whole state. -/
def stateEntries (st : UrlState) : PartialUpdate :=
  [ ("pageSize", .num st.pageSize)
  , ("search", .str st.search)
  , ("sortBy", .str st.sortBy)
  , ("sortOrder", .str st.sortOrder)
  , ("scoreMin", .num st.scoreMin)
  , ("scoreMax", .num st.scoreMax)
  , ("dateFrom", .str st.dateFrom)
  , ("dateTo", .str st.dateTo)
  , ("team", match st.team with | some t => .str t | none => .undef)
  , ("sessionId", .str st.sessionId) ]

/-- Writing a full Filter/Sort State through the `updateState` path of
`useUrlState.ts` (lines 43-58), starting from the given current params. -/
def writeState (ps : Params) (st : UrlState) : Params :=
  applyPartial ps (stateEntries st)

/-- Model of `updateState` including the `enableUrlSync` early return
(`useUrlState.ts` line 44): with sync disabled no params are produced
(`none` = no URL write is ever scheduled); with sync enabled the merged
params handed to the debounced writer are returned. -/
def updateState (enableUrlSync : Bool) (searchParams : Params)
    (updates : PartialUpdate) : Option Params :=
  if !enableUrlSync then none else some (applyPartial searchParams updates)

/-- The numeric value of a decimal digit character, `none` otherwise. -/
def digitVal (c : Char) : Option Nat :=
  if 48 ≤ c.toNat ∧ c.toNat ≤ 57 then some (c.toNat - 48) else none

/-- Accumulate the value of a run of decimal digits; `none` on any
non-digit. -/
def digitsVal (acc : Nat) : List Char → Option Nat
  | [] => some acc
  | c :: cs =>
    match digitVal c with
    | some d => digitsVal (acc * 10 + d) cs
    | none => none

/-- Parse an optionally signed decimal integer from a trimmed character
list; `none` models `NaN`. -/
def parseIntChars : List Char → Option Int
  | [] => none
  | '-' :: rest =>
    if rest.isEmpty then none
    else (digitsVal 0 rest).map (fun n => -(n : Int))
  | '+' :: rest =>
    if rest.isEmpty then none
    else (digitsVal 0 rest).map (fun n => (n : Int))
  | l => (digitsVal 0 l).map (fun n => (n : Int))

/-- Model of JavaScript `Number(s)` on the strings this state round-trips:
a whitespace-only (or empty) string is `0` (a JS quirk), an optionally
signed decimal integer string is its value, anything else is `NaN`
(`none`, which the reader turns into the field's default). -/
def jsNumber (s : String) : Option Int :=
  let t := trimChars s.data
  if t.isEmpty then some 0 else parseIntChars t

/-- One numeric field of the state memo in `useUrlState.ts` lines 16-29:
if the key is present and parses to a non-`NaN` number, use it, otherwise
keep the default. -/
def readNum (ps : Params) (k : String) (dflt : Int) : Int :=
  match pget ps k with
  | none => dflt
  | some v =>
    match jsNumber v with
    | some n => n
    | none => dflt

/-- One string field of the state memo: the raw param value if present,
otherwise the default. -/
def readStr (ps : Params) (k : String) (dflt : String) : String :=
  match pget ps k with
  | none => dflt
  | some v => v

/-- The state memo of `useUrlState.ts` lines 13-33 applied to the
`SessionList` Filter/Sort State: each field falls back to its default when
the query parameter is absent (or, for numbers, fails to parse).  The `team`
field has default `undefined`, so its `typeof` is neither `number` nor
`boolean` and the raw string branch applies. -/
def readState (ps : Params) : UrlState :=
  { pageSize := readNum ps "pageSize" 50
    search := readStr ps "search" ""
    sortBy := readStr ps "sortBy" "created_at"
    sortOrder := readStr ps "sortOrder" "desc"
    scoreMin := readNum ps "scoreMin" 0
    scoreMax := readNum ps "scoreMax" 10
    dateFrom := readStr ps "dateFrom" ""
    dateTo := readStr ps "dateTo" ""
    team := pget ps "team"
    sessionId := readStr ps "sessionId" "" }

/-- The field names of the Filter/Sort State, i.e. the query-string keys the
reader recognizes. -/
def stateKeys : List String :=
  ["pageSize", "search", "sortBy", "sortOrder", "scoreMin", "scoreMax",
   "dateFrom", "dateTo", "team", "sessionId"]

/-- The recognized keys actually present in a query string. -/
def recognizedKeys (ps : Params) : List String :=
  stateKeys.filter (fun k => (pget ps k).isSome)

/-! ## Debounce (`lib/utils.ts` lines 7-16) -/

/-- Model of the trailing-edge `debounce` of `lib/utils.ts`: given the calls
to the debounced function as a time-ordered list of (call time, args), return
the invocations of the wrapped function as (fire time, args).  Each call
clears the pending timer (`clearTimeout`) and schedules the wrapped function
at `call time + wait`; the timer survives exactly when the next call arrives
no earlier than the pending fire time. -/
def debounceFires {A : Type} (wait : Nat) : List (Nat × A) → List (Nat × A)
  | [] => []
  | (t, a) :: rest =>
    match rest with
    | [] => [(t + wait, a)]
    | (t2, _) :: _ =>
      (if t2 < t + wait then [] else [(t + wait, a)]) ++ debounceFires wait rest

/-- The URL writes produced by a burst of `updateState` calls within one
debounce window (`useUrlState.ts` lines 35-58 with
`DEBOUNCE_DELAYS.URL_STATE = 300`).  Because no `setSearchParams` has fired
inside the window, every call reads the same `searchParams` snapshot `start`
from its closure, so each call's scheduled args are `start` merged with just
that call's partial; the debouncer then keeps only the surviving calls. -/
def urlWrites (start : Params) (calls : List (Nat × PartialUpdate)) :
    List (Nat × Params) :=
  debounceFires 300 (calls.map (fun c => (c.1, applyPartial start c.2)))

/-! ## Sessions (`schemas/index.ts` SessionSchema) -/

/-- The `metrics` sub-record of `SessionSchema`. -/
structure SessionMetrics where
  confidence : Rat
  clarity : Rat
  listening : Rat
deriving DecidableEq, Repr

/-- A session record per `SessionSchema` (`schemas/index.ts` lines 23-31).
`score` is `z.number()` with no bound, embedded as `Rat`; `created_at` is a
string timestamp. -/
structure Session where
  id : String
  user_id : String
  title : String
  score : Rat
  metrics : SessionMetrics
  created_at : String
  duration : Rat
deriving DecidableEq, Repr

/-- The three sort keys of `SORT_OPTIONS.FIELDS`. -/
inductive SortBy where
  | score
  | created_at
  | title
deriving DecidableEq, Repr

/-- The two sort directions of `SORT_OPTIONS.ORDERS`. -/
inductive SortOrder where
  | asc
  | desc
deriving DecidableEq, Repr

/-- The `switch (urlState.sortBy)` of the comparator (`SessionList.tsx` lines
743-758): `score` and `title` are recognized, everything else (including the
default string) falls to the `created_at` default branch. -/
def sortByOf (s : String) : SortBy :=
  if s == "score" then .score else if s == "title" then .title else .created_at

/-- The direction test `urlState.sortOrder === 'asc'` (line 760): anything
other than the exact string `asc` sorts descending. -/
def sortOrderOf (s : String) : SortOrder :=
  if s == "asc" then .asc else .desc

/-- ASCII lowercase of one character (JS `toLowerCase` restricted to the
ASCII range of this application's titles). -/
def charLower (c : Char) : Char :=
  if 65 ≤ c.toNat ∧ c.toNat ≤ 90 then Char.ofNat (c.toNat + 32) else c

/-- Model of JS `s.toLowerCase()`. -/
def jsToLower (s : String) : String :=
  ⟨s.data.map charLower⟩

/-- The JS `aVal > bVal` test of the comparator, per sort key: numeric
comparison for `score`, lexicographic comparison of the lowercased titles for
`title`, and comparison of the parsed `Date` values for `created_at`.  Date
parsing (`new Date(string)` followed by `valueOf` comparison) is embedded as
an explicit parameter `dateMs` giving each timestamp string its epoch
milliseconds. -/
def keyGt (dateMs : String → Int) (sb : SortBy) (a b : Session) : Bool :=
  match sb with
  | .score => b.score < a.score
  | .title => jsToLower b.title < jsToLower a.title
  | .created_at => dateMs b.created_at < dateMs a.created_at

/-- The comparator of `filteredSessions` (`SessionList.tsx` lines 740-765),
verbatim: `asc` returns `aVal > bVal ? 1 : -1`, `desc` returns
`aVal < bVal ? 1 : -1`.  Note it never returns 0. -/
def sessionCmp (dateMs : String → Int) (sb : SortBy) (so : SortOrder)
    (a b : Session) : Int :=
  match so with
  | .asc => if keyGt dateMs sb a b then 1 else -1
  | .desc => if keyGt dateMs sb b a then 1 else -1

/-- Model of `Array.prototype.sort(comparator)` as executed on short arrays by
the V8 engine (the repository's Vitest and Chromium runtimes): binary
insertion sort.  Its list-level semantics inserts each element before the
first already-placed element `y` with `comparator(x, y) < 0`.  This detail
matters because the comparator above never returns 0, which makes it
inconsistent under the ECMAScript sort contract (`compare(a,b)` and
`compare(b,a)` are both negative on ties), so the engine's concrete algorithm
decides tie order. -/
def jsInsert {α : Type} (cmp : α → α → Int) (x : α) : List α → List α
  | [] => [x]
  | y :: ys => if cmp x y < 0 then x :: y :: ys else y :: jsInsert cmp x ys

/-- Sorting a whole list with `jsInsert`, left to right. -/
def jsSort {α : Type} (cmp : α → α → Int) (l : List α) : List α :=
  l.foldl (fun acc x => jsInsert cmp x acc) []

/-- Whether `needle` occurs at the start of `hay` (character-list view), the
building block for JS `String.prototype.includes`. -/
def matchesAt : List Char → List Char → Bool
  | [], _ => true
  | _ :: _, [] => false
  | c :: cs, d :: ds => c == d && matchesAt cs ds

/-- Model of JS `hay.includes(needle)` on character lists: the needle occurs
at some position of the hay. -/
def hasSub (needle : List Char) : List Char → Bool
  | [] => matchesAt needle []
  | c :: t => matchesAt needle (c :: t) || hasSub needle t

/-- The date-handling environment of the client-side filters: `ms` embeds
`new Date(s).valueOf()`, `endOfDayMs` embeds `new Date(s)` followed by
`setHours(23, 59, 59, 999)` for the `dateTo` bound. -/
structure DateEnv where
  ms : String → Int
  endOfDayMs : String → Int

/-- The filtering stages of `filteredSessions` (`SessionList.tsx` lines
697-737), in source order: title search (applied when the search string is
truthy and its trim is truthy), score range (applied only when
`scoreMin > SCORE_RANGES.MIN || scoreMax < SCORE_RANGES.MAX`), date-from,
date-to, and the team stage, which is a no-op in the source (its body is a
comment). -/
def applyFilters (env : DateEnv) (st : UrlState) (l : List Session) :
    List Session :=
  let f1 := if st.search != "" && jsTrim st.search != "" then
      l.filter (fun s =>
        hasSub (jsTrim (jsToLower st.search)).data (jsToLower s.title).data)
    else l
  let f2 := if st.scoreMin > 0 || st.scoreMax < 10 then
      f1.filter (fun s =>
        (st.scoreMin : Rat) ≤ s.score && s.score ≤ (st.scoreMax : Rat))
    else f1
  let f3 := if st.dateFrom != "" then
      f2.filter (fun s => env.ms st.dateFrom ≤ env.ms s.created_at)
    else f2
  let f4 := if st.dateTo != "" then
      f3.filter (fun s => env.ms s.created_at ≤ env.endOfDayMs st.dateTo)
    else f3
  f4

/-- The `filteredSessions` memo (`SessionList.tsx` lines 692-769): empty
accumulated collection short-circuits to `[]`; otherwise the filters run in
source order and the result is sorted with the comparator. -/
def filteredSessions (env : DateEnv) (st : UrlState) (sessions : List Session) :
    List Session :=
  if sessions.isEmpty then []
  else jsSort (sessionCmp env.ms (sortByOf st.sortBy) (sortOrderOf st.sortOrder))
    (applyFilters env st sessions)

/-! ## Page Accumulator (`SessionList.tsx` lines 598-636, 780-793) -/

/-- Loaded count: `allPages.reduce((sum, page) => sum + page.sessions.length, 0)`. -/
def sumLen (pages : List (List Session)) : Nat :=
  (pages.map List.length).sum

/-- `getNextPageParam` (`SessionList.tsx` lines 624-627): the next page index
is `allPages.length + 1` while the loaded count is strictly below the total
reported by the most recent page response, otherwise `undefined`. -/
def getNextPageParam (allPages : List (List Session)) (lastTotal : Nat) :
    Option Nat :=
  if sumLen allPages < lastTotal then some (allPages.length + 1) else none

/-- Modelled from the spec: the Remote Session Source (the external HTTP
endpoint of §6, not part of src/) answers page `p` of page size `ps` with the
`p`-th slice of its full result list `L` for the current filter state and
reports `total = L.length` on every response. -/
def serverPage (L : List Session) (ps p : Nat) : List Session :=
  (L.drop ((p - 1) * ps)).take ps

/-- One renderer-requested fetch: the infinite-scroll effect (`SessionList.tsx`
lines 781-793) calls `fetchNextPage` only when `hasNextPage` holds, i.e. when
`getNextPageParam` produced a page index; the response is appended in fetch
order.  When `getNextPageParam` is `undefined` the request is a no-op. -/
def fetchStep (L : List Session) (ps : Nat) (pages : List (List Session)) :
    List (List Session) :=
  match getNextPageParam pages L.length with
  | some p => pages ++ [serverPage L ps p]
  | none => pages

/-- The accumulated pages after `k` renderer-requested fetches within one
filter epoch, starting from the empty cache entry. -/
def fetchN (L : List Session) (ps : Nat) : Nat → List (List Session)
  | 0 => []
  | k + 1 => fetchStep L ps (fetchN L ps k)

/-! ## Filter epochs (`queryKey: ['sessions', urlState]`) -/

/-- Events seen by the accumulated collection for the session list. -/
inductive FetchEvent where
  | response (tag : Nat) (page : List Session)
  | failure
  | stateChange
deriving DecidableEq, Repr

/-- The accumulated collection together with its filter epoch: `epoch` counts
Filter/Sort State changes, and each stored page is tagged with the epoch its
fetch was issued for. -/
structure AccumSt where
  epoch : Nat
  pages : List (Nat × List Session)
deriving DecidableEq, Repr

/-- Modelled from the spec (§5) and the query-cache keying
`queryKey: ['sessions', urlState]` (`SessionList.tsx` line 605): a response
is appended only if its epoch tag still matches the current state (a stale
in-flight response resolves against a key that is no longer mounted and is
discarded); a failed fetch leaves the already-accumulated pages untouched;
a Filter/Sort State change starts a fresh epoch with an empty collection. -/
def stepAccum (st : AccumSt) : FetchEvent → AccumSt
  | .response tag pg =>
    if tag = st.epoch then { st with pages := st.pages ++ [(tag, pg)] } else st
  | .failure => st
  | .stateChange => { epoch := st.epoch + 1, pages := [] }

/-- Run the accumulator from the initial mount (epoch 0, nothing loaded). -/
def runAccum (evs : List FetchEvent) : AccumSt :=
  evs.foldl stepAccum ⟨0, []⟩

/-! ## Retrying transport (`services/api.ts` lines 27-41) -/

/-- The outcome of one underlying `fetch` call: an HTTP response with a status
code, or a rejection (network error / thrown `ApiError`). -/
inductive FetchOutcome where
  | status (code : Nat)
  | reject
deriving DecidableEq, Repr

/-- The result of `fetchWithRetry`: a successful response (recording on which
attempt), a thrown `ApiError` for a final-attempt 4xx, a rethrown rejection,
or the final `Error('Max retries exceeded')`. -/
inductive FetchResult where
  | success (attempt : Nat)
  | apiError (code : Nat)
  | netError
  | maxRetries
deriving DecidableEq, Repr

/-- The `for (let i = 0; i < retries; i++)` loop of `fetchWithRetry`, with
`fuel` = remaining iterations and `i` the current attempt index.  Alongside
the result it returns the list of backoff delays actually awaited
(`Math.pow(2, i) * 1000`); note the delay sits only in the `catch` branch, so
a non-ok HTTP response is retried with no delay. -/
def fwrGo (f : Nat → FetchOutcome) (retries : Nat) :
    Nat → Nat → FetchResult × List Nat
  | 0, _ => (.maxRetries, [])
  | fuel + 1, i =>
    match f i with
    | .status c =>
      if 200 ≤ c ∧ c ≤ 299 then (.success i, [])
      else if 400 ≤ c ∧ c < 500 ∧ i = retries - 1 then (.apiError c, [])
      else fwrGo f retries fuel (i + 1)
    | .reject =>
      if i = retries - 1 then (.netError, [])
      else
        let r := fwrGo f retries fuel (i + 1)
        (r.1, 2 ^ i * 1000 :: r.2)

/-- `fetchWithRetry` (`services/api.ts` lines 27-41) with
`API_CONFIG.RETRY_ATTEMPTS` passed as `retries`, driven by the outcome of
each attempt. -/
def fetchWithRetry (f : Nat → FetchOutcome) (retries : Nat) :
    FetchResult × List Nat :=
  fwrGo f retries retries 0

/-! ## Key-equality view of the sort comparator -/

/-- Whether a session carries the same sort-key value as the reference session
`s₀`, for the active sort key: equal scores, equal lowercased titles, or equal
parsed dates. -/
def sameKey (env : DateEnv) (sb : SortBy) (s₀ s : Session) : Bool :=
  match sb with
  | .score => s.score == s₀.score
  | .title => jsToLower s.title == jsToLower s₀.title
  | .created_at => env.ms s.created_at == env.ms s₀.created_at

/-! ## Concrete demonstration data -/

/-- A demo session differing only in id and score. -/
def mkSession (i : String) (sc : Rat) : Session :=
  { id := i, user_id := "u", title := "t", score := sc,
    metrics := ⟨0, 0, 0⟩, created_at := "2024-01-01", duration := 0 }

/-- A concrete date environment (all timestamps parse to 0). -/
def envZ : DateEnv := ⟨fun _ => 0, fun _ => 0⟩

/-- First of two equal-score sessions, in fetch order. -/
def tieA : Session := mkSession "a" 5

/-- Second of two equal-score sessions, in fetch order. -/
def tieB : Session := mkSession "b" 5

/-- Demo session with score 4. -/
def demoS4 : Session := mkSession "s4" 4

/-- Demo session with score 7. -/
def demoS7 : Session := mkSession "s7" 7

/-- Demo session with score 9. -/
def demoS9 : Session := mkSession "s9" 9

/-- The accumulated collection with scores `[4, 9, 7]` in fetch order. -/
def demo3 : List Session := [demoS4, demoS9, demoS7]

/-- Filter/Sort State sorting by score ascending, all else default. -/
def stScoreAsc : UrlState :=
  { defaultUrlState with sortBy := "score", sortOrder := "asc" }

/-- Filter/Sort State sorting by score descending, all else default. -/
def stScoreDesc : UrlState := { defaultUrlState with sortBy := "score" }

/-- A server result list of five sessions (for the page-size-2, total-5
pagination scenario). -/
def demoL5 : List Session :=
  [mkSession "1" 1, mkSession "2" 2, mkSession "3" 3, mkSession "4" 4,
   mkSession "5" 5]

/-- Page 1 of the old filter epoch. -/
def pgOld1 : List Session := [mkSession "o1" 1, mkSession "o2" 2]

/-- Page 2 of the old filter epoch (in flight across the state change). -/
def pgOld2 : List Session := [mkSession "o3" 3]

/-- Page 1 of the new filter epoch. -/
def pgNew1 : List Session := [mkSession "n1" 6]

/-- A session whose score 15 lies outside the `[0, 10]` score range. -/
def wildSession : Session := mkSession "wild" 15

/-! ## Theorems -/

/-- C1, counterexample.  Writing the default Filter/Sort State through the
`updateState` path does NOT produce a URL with zero recognized keys: the
emptiness test of `updateState` removes only `undefined`/`null`/empty-string
values, so the non-empty defaults `pageSize = 50`, `sortBy = created_at`,
`sortOrder = desc`, `scoreMin = 0` and `scoreMax = 10` are all written
(`0 === ''` is false under strict equality, so numeric defaults are never
omitted). -/
theorem default_write_has_keys :
    recognizedKeys (writeState [] defaultUrlState)
      = ["pageSize", "sortBy", "sortOrder", "scoreMin", "scoreMax"]
    ∧ recognizedKeys (writeState [] defaultUrlState) ≠ [] := by
  decide

/-- C1, amended.  Writing the default state removes exactly the
string-empty/undefined fields (`search`, `dateFrom`, `dateTo`, `team`,
`sessionId`) and writes the five non-empty defaults; parsing the resulting
URL still reproduces the default state exactly: `read(write(default)) =
default`. -/
theorem default_roundtrip_amended :
    readState (writeState [] defaultUrlState) = defaultUrlState
    ∧ recognizedKeys (writeState [] defaultUrlState)
      = ["pageSize", "sortBy", "sortOrder", "scoreMin", "scoreMax"] := by
  decide

/-- C9.  With `enableUrlSync = false`, `updateState` returns before doing
anything (`useUrlState.ts` line 44): no URL write is scheduled, and — because
the hook's state is computed solely from the current search params — the
in-memory state does not change either.  The repository's own unit test
(`useUrlState.test.ts`, "updates state") expects the state to become
`{ search: 'test', page: 1 }` after such a call, so the code contradicts its
own test: the claim describes the intended behaviour and the code drops the
in-memory update. -/
theorem sync_disabled_noop :
    (∀ (ps : Params) (u : PartialUpdate), updateState false ps u = none)
    ∧ updateState false [] [("search", JsVal.str "test")] = none
    ∧ readState [] = defaultUrlState
    ∧ (readState []).search ≠ "test" := by
  refine ⟨fun ps u => rfl, rfl, by decide, by decide⟩

/-- C7, counterexample.  A page fetch whose three attempts all return HTTP 500
is retried with NO backoff delay at all: the `Math.pow(2, i) * 1000` sleep
sits only in the `catch` branch of `fetchWithRetry`, and a non-ok response
does not throw, so the loop spins through all attempts immediately and then
throws `Max retries exceeded`.  This refutes "retried ... with exponential
backoff whose base delay doubles on each successive attempt" for
response-failure (as opposed to rejection) outcomes. -/
theorem retry_no_backoff_http_cex :
    fetchWithRetry (fun _ => FetchOutcome.status 500) 3
      = (FetchResult.maxRetries, [])
    ∧ (fetchWithRetry (fun _ => FetchOutcome.status 500) 3).2.length = 0 := by
  decide

/-- C7, amended.  `fetchWithRetry` makes at most `RETRY_ATTEMPTS = 3` attempts
and throws after the last failure, and already-accumulated pages survive a
failed fetch; but the doubling backoff delays (1000 ms then 2000 ms) are
awaited only between attempts whose `fetch` call rejected (network error) —
attempts that completed with an HTTP error status are retried immediately,
with a final `ApiError` for a last-attempt 4xx and a generic error
otherwise. -/
theorem retry_semantics :
    fetchWithRetry (fun _ => FetchOutcome.reject) 3
      = (FetchResult.netError, [1000, 2000])
    ∧ fetchWithRetry (fun _ => FetchOutcome.status 500) 3
      = (FetchResult.maxRetries, [])
    ∧ fetchWithRetry (fun _ => FetchOutcome.status 404) 3
      = (FetchResult.apiError 404, [])
    ∧ fetchWithRetry (fun _ => FetchOutcome.status 200) 3
      = (FetchResult.success 0, [])
    ∧ (∀ st : AccumSt, stepAccum st FetchEvent.failure = st) := by
  refine ⟨by decide, by decide, by decide, by decide, fun st => rfl⟩

/-- Helper: a burst of calls whose gaps are all shorter than the wait
produces exactly one invocation, at last-call time plus wait, with the last
call's args. -/
theorem debounceFires_burst {A : Type} (w : Nat) :
    ∀ (l : List (Nat × A)) (x : Nat × A), l.getLast? = some x →
      List.Chain' (fun c c2 => c2.1 < c.1 + w) l →
      debounceFires w l = [(x.1 + w, x.2)] := by
  intro l
  induction l with
  | nil => intro x h; simp at h
  | cons c rest ih =>
    intro x hlast hch
    cases rest with
    | nil =>
      simp only [List.getLast?_singleton, Option.some.injEq] at hlast
      subst hlast
      rfl
    | cons c2 rest2 =>
      have hgap : c2.1 < c.1 + w := (List.chain'_cons.mp hch).1
      have htail := (List.chain'_cons.mp hch).2
      have hlast2 : (c2 :: rest2).getLast? = some x := by
        simpa [List.getLast?_cons_cons] using hlast
      show (if c2.1 < c.1 + w then [] else [(c.1 + w, c.2)])
          ++ debounceFires w (c2 :: rest2) = [(x.1 + w, x.2)]
      rw [if_pos hgap, List.nil_append]
      exact ih x hlast2 htail

/-- C5, amended.  Within one debounce window (every gap shorter than the
300 ms delay) a burst of `updateState` calls produces exactly one URL write
— each call resets the pending timer rather than stacking one — but that
single write is the window-start params merged with ONLY the final call's
partial: each call rebuilds `newParams` from the unchanged `searchParams`
snapshot, so earlier partials of the window are not merged in. -/
theorem debounce_single_write_last (start : Params)
    (calls : List (Nat × PartialUpdate)) (x : Nat × PartialUpdate)
    (hlast : calls.getLast? = some x)
    (hgaps : List.Chain' (fun c c2 => c2.1 < c.1 + 300) calls) :
    urlWrites start calls = [(x.1 + 300, applyPartial start x.2)] := by
  unfold urlWrites
  refine debounceFires_burst 300 _ (x.1, applyPartial start x.2) ?_ ?_
  · rw [List.getLast?_map, hlast]
    rfl
  · exact (List.chain'_map _).mpr hgaps

/-- Witness for `debounce_single_write_last` at a concrete two-call burst. -/
theorem debounce_single_write_last_witness :
    urlWrites [] [((0 : Nat), [("search", JsVal.str "a")]),
        ((100 : Nat), [("search", JsVal.str "ab")])]
      = [((100 : Nat) + 300, applyPartial [] [("search", JsVal.str "ab")])] :=
  debounce_single_write_last [] _ ((100 : Nat), [("search", JsVal.str "ab")])
    rfl (by simp)

/-- C5, counterexample.  Two calls 100 ms apart, the first setting `search`,
the second setting `scoreMin`: the single debounced write contains only
`scoreMin` — the claim's "merge every partial of the sequence, in order"
would also retain `search=a`, as the third conjunct shows. -/
theorem debounce_merge_cex :
    urlWrites [] [((0 : Nat), [("search", JsVal.str "a")]),
        ((100 : Nat), [("scoreMin", JsVal.num 5)])]
      = [(400, [("scoreMin", "5")])]
    ∧ pget [("scoreMin", "5")] "search" = none
    ∧ pget (applyPartial []
        ([("search", JsVal.str "a")] ++ [("scoreMin", JsVal.num 5)])) "search"
      = some "a" := by
  decide

/-- Helper: membership through one insertion step of the sort model. -/
theorem mem_jsInsert {α : Type} (cmp : α → α → Int) (x y : α) (l : List α) :
    y ∈ jsInsert cmp x l ↔ y = x ∨ y ∈ l := by
  induction l with
  | nil => simp [jsInsert]
  | cons z zs ih =>
    simp only [jsInsert]
    split
    · simp [or_assoc]
    · simp only [List.mem_cons, ih]
      tauto

/-- Helper: the sort model permutes membership. -/
theorem mem_jsSort {α : Type} (cmp : α → α → Int) (y : α) (l : List α) :
    y ∈ jsSort cmp l ↔ y ∈ l := by
  have key : ∀ (l acc : List α),
      (y ∈ l.foldl (fun acc x => jsInsert cmp x acc) acc ↔ y ∈ acc ∨ y ∈ l) := by
    intro l
    induction l with
    | nil => simp
    | cons x xs ih =>
      intro acc
      simp only [List.foldl_cons, ih, mem_jsInsert, List.mem_cons]
      tauto
  simpa using key l []

/-- Helper: inserting an element satisfying `p`, which the comparator sends
before every `p`-element, prepends it to the `p`-sublist. -/
theorem filter_jsInsert_pos {α : Type} (cmp : α → α → Int) (p : α → Bool)
    (x : α) (hx : p x = true) (h : ∀ y, p y = true → cmp x y < 0) :
    ∀ l : List α, (jsInsert cmp x l).filter p = x :: l.filter p := by
  intro l
  induction l with
  | nil => simp [jsInsert, hx]
  | cons z zs ih =>
    simp only [jsInsert]
    by_cases hc : cmp x z < 0
    · rw [if_pos hc]
      simp [hx]
    · rw [if_neg hc]
      have hz : p z = false := by
        cases hpz : p z with
        | false => rfl
        | true => exact absurd (h z hpz) hc
      simp [List.filter_cons, hz, ih]

/-- Helper: inserting an element not satisfying `p` leaves the `p`-sublist
unchanged. -/
theorem filter_jsInsert_neg {α : Type} (cmp : α → α → Int) (p : α → Bool)
    (x : α) (hx : p x = false) :
    ∀ l : List α, (jsInsert cmp x l).filter p = l.filter p := by
  intro l
  induction l with
  | nil => simp [jsInsert, hx]
  | cons z zs ih =>
    simp only [jsInsert]
    split
    · simp [List.filter_cons, hx]
    · simp [List.filter_cons, ih]

/-- Helper: for a comparator that is always negative on `p`-pairs, the sort
model reverses the `p`-sublist. -/
theorem filter_jsSort {α : Type} (cmp : α → α → Int) (p : α → Bool)
    (hp : ∀ a b, p a = true → p b = true → cmp a b < 0) (l : List α) :
    (jsSort cmp l).filter p = (l.filter p).reverse := by
  have key : ∀ (l acc : List α),
      (l.foldl (fun acc x => jsInsert cmp x acc) acc).filter p
        = (l.filter p).reverse ++ acc.filter p := by
    intro l
    induction l with
    | nil => simp
    | cons x xs ih =>
      intro acc
      simp only [List.foldl_cons, ih]
      cases hx : p x with
      | false => simp [List.filter_cons, hx, filter_jsInsert_neg cmp p x hx]
      | true =>
        simp [List.filter_cons, hx,
          filter_jsInsert_pos cmp p x hx (fun y hy => hp x y hx hy),
          List.append_assoc]
  simpa using key l []

/-- Helper: on two sessions with the same sort-key value the comparator of
`filteredSessions` returns a negative answer in both argument orders (it
never returns 0), for every sort key and direction. -/
theorem sessionCmp_neg_of_sameKey (env : DateEnv) (sb : SortBy)
    (so : SortOrder) (s₀ a b : Session)
    (ha : sameKey env sb s₀ a = true) (hb : sameKey env sb s₀ b = true) :
    sessionCmp env.ms sb so a b < 0 := by
  cases sb <;> cases so <;>
    simp only [sameKey, beq_iff_eq] at ha hb <;>
    simp [sessionCmp, keyGt, ha, hb]

/-- Helper: filtering the empty collection yields the empty collection. -/
theorem applyFilters_nil (env : DateEnv) (st : UrlState) :
    applyFilters env st [] = [] := by
  unfold applyFilters
  split_ifs <;> simp

/-- C2, counterexample.  Two sessions with equal score, in fetch order
`[tieA, tieB]`, sorted by score, come out as `[tieB, tieA]` for BOTH
directions: the comparator returns -1 on ties in both argument orders (it
never returns 0), so the engine's binary insertion sort places each later
tied element before the earlier one.  Relative order of equal-key sessions
is reversed, not preserved. -/
theorem sort_not_stable_cex :
    filteredSessions envZ stScoreAsc [tieA, tieB] = [tieB, tieA]
    ∧ filteredSessions envZ stScoreDesc [tieA, tieB] = [tieB, tieA]
    ∧ tieA.score = tieB.score
    ∧ tieA ≠ tieB := by
  decide

/-- C2, amended.  The client-side sort is anti-stable on ties: for every
accumulated collection, every Filter/Sort State, and every sort-key value
(represented by a reference session `s₀`), the sessions carrying that key
value appear in the sorted output in exactly the REVERSE of their fetch
order, for both `asc` and `desc` — because the comparator is negative on
every tied pair in both argument orders. -/
theorem sort_ties_reversed (env : DateEnv) (st : UrlState) (s₀ : Session)
    (l : List Session) :
    (filteredSessions env st l).filter (sameKey env (sortByOf st.sortBy) s₀)
      = ((applyFilters env st l).filter
          (sameKey env (sortByOf st.sortBy) s₀)).reverse := by
  unfold filteredSessions
  by_cases hl : l.isEmpty = true
  · rw [if_pos hl]
    rw [List.isEmpty_iff.mp hl, applyFilters_nil]
    simp
  · rw [if_neg hl]
    exact filter_jsSort _ _
      (fun a b ha hb => sessionCmp_neg_of_sameKey env (sortByOf st.sortBy)
        (sortOrderOf st.sortOrder) s₀ a b ha hb) _

/-- C8, counterexample.  On a tied pair the `desc` comparison is NOT the
strict reversal of the `asc` result: both comparators return -1 (the strict
reversal of -1 would be 1). -/
theorem comparator_tie_cex :
    sessionCmp envZ.ms SortBy.score SortOrder.asc tieA tieB = -1
    ∧ sessionCmp envZ.ms SortBy.score SortOrder.desc tieA tieB = -1
    ∧ ¬((-1 : Int) = -(-1 : Int)) := by
  decide

/-- C8, amended.  For every pair of sessions whose values under the active
sort key DIFFER (one `keyGt` the other), the `desc` comparator result is
exactly the negation of the `asc` result, with no independent tie-break
logic; on equal key values both directions return -1.  The concrete
scenarios hold: scores `[4, 9, 7]` sort to `[9, 7, 4]` under
`sortBy=score, sortOrder=desc` and to `[4, 7, 9]` under `asc`. -/
theorem comparator_reversal_amended :
    (∀ (dateMs : String → Int) (sb : SortBy) (a b : Session),
        (keyGt dateMs sb a b = true ∨ keyGt dateMs sb b a = true →
          sessionCmp dateMs sb SortOrder.desc a b
            = -(sessionCmp dateMs sb SortOrder.asc a b))
        ∧ (keyGt dateMs sb a b = false → keyGt dateMs sb b a = false →
            sessionCmp dateMs sb SortOrder.asc a b = -1
            ∧ sessionCmp dateMs sb SortOrder.desc a b = -1))
    ∧ filteredSessions envZ stScoreDesc demo3 = [demoS9, demoS7, demoS4]
    ∧ filteredSessions envZ stScoreAsc demo3 = [demoS4, demoS7, demoS9] := by
  refine ⟨fun dateMs sb a b => ⟨fun h => ?_, fun h1 h2 => ?_⟩, by decide, by decide⟩
  · have asymm : keyGt dateMs sb a b = true → keyGt dateMs sb b a = false := by
      cases sb <;> simp only [keyGt, decide_eq_true_eq, decide_eq_false_iff_not] <;>
        intro hlt <;> exact not_lt_of_lt hlt
    have asymm2 : keyGt dateMs sb b a = true → keyGt dateMs sb a b = false := by
      cases sb <;> simp only [keyGt, decide_eq_true_eq, decide_eq_false_iff_not] <;>
        intro hlt <;> exact not_lt_of_lt hlt
    rcases h with h | h
    · simp [sessionCmp, h, asymm h]
    · simp [sessionCmp, h, asymm2 h]
  · simp [sessionCmp, h1, h2]

/-- Witness for `comparator_reversal_amended`: on the distinct-score pair
(9, 4) the `desc` comparator is the negation of the `asc` comparator. -/
theorem comparator_reversal_witness :
    sessionCmp (fun _ => (0 : Int)) SortBy.score SortOrder.desc demoS9 demoS4
      = -(sessionCmp (fun _ => (0 : Int)) SortBy.score SortOrder.asc
          demoS9 demoS4) :=
  ((comparator_reversal_amended.1 (fun _ => (0 : Int)) SortBy.score
      demoS9 demoS4).1) (Or.inl (by decide))

/-- Helper: the default Filter/Sort State disables every client-side filter
stage: the search string is empty, the score bounds sit at
`SCORE_RANGES.MIN`/`MAX` (so `scoreMin > 0 || scoreMax < 10` is false and the
score predicate is never evaluated), and both date strings are empty. -/
theorem applyFilters_default (env : DateEnv) (l : List Session) :
    applyFilters env defaultUrlState l = l := rfl

/-- C10.  Under the default score bounds (`scoreMin = 0`, `scoreMax = 10`)
no score predicate is applied at all — the guard
`scoreMin > SCORE_RANGES.MIN || scoreMax < SCORE_RANGES.MAX` is false — so
every session of the accumulated collection, including one whose unbounded
schema score lies outside `[0, 10]`, is in the derived subset for the
default state. -/
theorem score_default_no_filter (env : DateEnv) (l : List Session)
    (s : Session) (hs : s ∈ l) :
    s ∈ filteredSessions env defaultUrlState l := by
  have hne : l.isEmpty = false := by
    cases l with
    | nil => cases hs
    | cons a t => rfl
  unfold filteredSessions
  rw [if_neg (by simp [hne]), applyFilters_default]
  exact (mem_jsSort _ _ _).mpr hs

/-- Witness for `score_default_no_filter`: the session with score 15
(outside `[0, 10]`) is kept by the default-state derive step. -/
theorem score_default_no_filter_witness :
    wildSession ∈ filteredSessions envZ defaultUrlState [wildSession] :=
  score_default_no_filter envZ [wildSession] wildSession (by simp)

/-- Helper: loaded count after appending one page. -/
theorem sumLen_append (pages : List (List Session)) (pg : List Session) :
    sumLen (pages ++ [pg]) = sumLen pages + pg.length := by
  simp [sumLen]

/-- Helper: the length of the slice the modelled server returns for one
page request. -/
theorem length_serverPage (L : List Session) (ps p : Nat) :
    (serverPage L ps p).length = min ps (L.length - (p - 1) * ps) := by
  simp [serverPage]

/-- Helper: while more sessions remain, a requested fetch appends the next
sequential page. -/
theorem fetchStep_eq_pos (L : List Session) (ps : Nat)
    (pages : List (List Session)) (h : sumLen pages < L.length) :
    fetchStep L ps pages = pages ++ [serverPage L ps (pages.length + 1)] := by
  unfold fetchStep getNextPageParam
  rw [if_pos h]

/-- Helper: once the loaded count has reached the total, a requested fetch
changes nothing. -/
theorem fetchStep_eq_neg (L : List Session) (ps : Nat)
    (pages : List (List Session)) (h : ¬sumLen pages < L.length) :
    fetchStep L ps pages = pages := by
  unfold fetchStep getNextPageParam
  rw [if_neg h]

/-- Helper: after `k` sequential fetches the loaded count equals
`min (pages * pageSize) total`. -/
theorem sumLen_fetchN (L : List Session) (ps : Nat) :
    ∀ k : Nat, sumLen (fetchN L ps k)
      = min ((fetchN L ps k).length * ps) L.length := by
  intro k
  induction k with
  | zero => simp [fetchN, sumLen]
  | succ k ih =>
    by_cases h : sumLen (fetchN L ps k) < L.length
    · have hstep : fetchN L ps (k + 1)
          = fetchN L ps k ++ [serverPage L ps ((fetchN L ps k).length + 1)] :=
        fetchStep_eq_pos L ps (fetchN L ps k) h
      have hm : (fetchN L ps k).length * ps < L.length := by
        rw [ih] at h
        omega
      rw [hstep, sumLen_append, length_serverPage, ih]
      simp only [List.length_append, List.length_singleton]
      rw [Nat.add_mul, Nat.one_mul, Nat.add_sub_cancel]
      omega
    · have hstep : fetchN L ps (k + 1) = fetchN L ps k :=
        fetchStep_eq_neg L ps (fetchN L ps k) h
      rw [hstep, ih]

/-- C6.  Within one filter epoch the loaded count never exceeds the
server-reported total and is non-decreasing across successive
renderer-requested fetches; a Filter/Sort State change (a new query key)
resets the accumulation to the empty collection. -/
theorem accumulation_invariants :
    (∀ (L : List Session) (ps k : Nat), sumLen (fetchN L ps k) ≤ L.length)
    ∧ (∀ (L : List Session) (ps k : Nat),
        sumLen (fetchN L ps k) ≤ sumLen (fetchN L ps (k + 1)))
    ∧ (∀ st : AccumSt, (stepAccum st FetchEvent.stateChange).pages = []) := by
  refine ⟨fun L ps k => ?_, fun L ps k => ?_, fun st => rfl⟩
  · rw [sumLen_fetchN]
    exact Nat.min_le_right _ _
  · by_cases h : sumLen (fetchN L ps k) < L.length
    · have hstep : fetchN L ps (k + 1)
          = fetchN L ps k ++ [serverPage L ps ((fetchN L ps k).length + 1)] :=
        fetchStep_eq_pos L ps (fetchN L ps k) h
      rw [hstep, sumLen_append]
      exact Nat.le_add_right _ _
    · have hstep : fetchN L ps (k + 1) = fetchN L ps k :=
        fetchStep_eq_neg L ps (fetchN L ps k) h
      rw [hstep]

/-- C3.  A next page is reported available exactly while the loaded count is
strictly below the total of the most recent response, and a
renderer-requested fetch once the loaded count has reached the total is a
no-op, not an error.  Concretely, with page size 2 and a total of 5, three
successive fetches load 2, 4 and 5 sessions and a fourth requested fetch
issues nothing. -/
theorem pagination_termination :
    (∀ (pages : List (List Session)) (t : Nat),
        (getNextPageParam pages t).isSome = true ↔ sumLen pages < t)
    ∧ (∀ (L : List Session) (ps : Nat) (pages : List (List Session)),
        L.length ≤ sumLen pages → fetchStep L ps pages = pages)
    ∧ sumLen (fetchN demoL5 2 1) = 2
    ∧ sumLen (fetchN demoL5 2 2) = 4
    ∧ sumLen (fetchN demoL5 2 3) = 5
    ∧ fetchN demoL5 2 4 = fetchN demoL5 2 3
    ∧ getNextPageParam (fetchN demoL5 2 3) demoL5.length = none := by
  refine ⟨fun pages t => ?_, fun L ps pages h => ?_, by decide, by decide,
    by decide, by decide, by decide⟩
  · by_cases h : sumLen pages < t <;> simp [getNextPageParam, h]
  · exact fetchStep_eq_neg L ps pages (Nat.not_lt.mpr h)

/-- Witness for `pagination_termination`: with all five sessions loaded, the
fourth requested fetch returns the pages unchanged. -/
theorem pagination_termination_witness :
    fetchStep demoL5 2 (fetchN demoL5 2 3) = fetchN demoL5 2 3 :=
  pagination_termination.2.1 demoL5 2 (fetchN demoL5 2 3) (by decide)

/-- Helper: the epoch-tag invariant is preserved by any event sequence. -/
theorem accum_inv_fold (evs : List FetchEvent) :
    ∀ st : AccumSt, (∀ p ∈ st.pages, p.1 = st.epoch) →
      ∀ p ∈ (evs.foldl stepAccum st).pages, p.1 = (evs.foldl stepAccum st).epoch := by
  induction evs with
  | nil => exact fun st h => h
  | cons e evs ih =>
    intro st h
    simp only [List.foldl_cons]
    apply ih
    cases e with
    | response tag pg =>
      by_cases htag : tag = st.epoch
      · simp only [stepAccum, if_pos htag]
        intro p hp
        rcases List.mem_append.mp hp with hp | hp
        · exact h p hp
        · simp only [List.mem_singleton] at hp
          rw [hp, htag]
      · simp only [stepAccum, if_neg htag]
        exact h
    | failure => exact h
    | stateChange =>
      intro p hp
      simp [stepAccum] at hp

/-- C4.  A response whose filter epoch no longer matches the current state is
discarded on arrival: after any event sequence every page held by the
accumulated collection carries the current epoch's tag — never a mix of two
epochs.  In the concrete scenario, the old epoch's in-flight page-2 response
arriving after a state change is dropped, and the collection holds exactly
page 1 of the new epoch. -/
theorem epoch_isolation :
    (∀ (evs : List FetchEvent), ∀ p ∈ (runAccum evs).pages,
        p.1 = (runAccum evs).epoch)
    ∧ runAccum [FetchEvent.response 0 pgOld1, FetchEvent.stateChange,
        FetchEvent.response 0 pgOld2, FetchEvent.response 1 pgNew1]
      = ⟨1, [(1, pgNew1)]⟩ := by
  refine ⟨fun evs => ?_, by decide⟩
  exact accum_inv_fold evs ⟨0, []⟩ (by intro p hp; cases hp)

/-- Witness for `epoch_isolation`: the new epoch's page carries the current
epoch tag in the concrete scenario. -/
theorem epoch_isolation_witness :
    ((1 : Nat), pgNew1).1
      = (runAccum [FetchEvent.response 0 pgOld1, FetchEvent.stateChange,
          FetchEvent.response 0 pgOld2, FetchEvent.response 1 pgNew1]).epoch :=
  epoch_isolation.1 _ ((1 : Nat), pgNew1) (by decide)

end SalesDash
